import Mathlib

/-!
Verification of the libdns IONOS adapter (`client.go` / `provider.go`).

The Go sources are embedded shallowly:

* the pure record-translation layer (`toIonosRecord`, `fromIonosRecord`,
  `ionosTTL`, `unFQDN`) becomes pure Lean functions;
* the stateful REST exchanges become explicit state passing over `ApiState`,
  a model of the vendor's zone store together with a schedule of injected
  transport failures (one entry consumed per HTTP exchange), so that
  error-propagation behaviour of the provider operations can be stated;
* Go's `(value, error)` returns become `Except`/`Option` shapes, and the
  out-of-range panic in `AppendRecords` becomes an `Option` result.

Vendor-side behaviour (what the REST service does to the zone store) and the
helpers of the external `libdns` library are not part of the repository and
are modelled from the specification; each such definition carries a
`Modelled from the spec:` doc comment.  Everything else is translated
directly from the Go sources.
-/

/-- Wire form of a zone descriptor (`zoneDescriptor` in `client.go`). -/
structure ZoneDescriptor where
  name : String
  id : String
  type : String
deriving DecidableEq

/-- Wire form of a record returned by read endpoints (`zoneRecord`). -/
structure ZoneRecord where
  id : String
  name : String
  rootName : String
  type : String
  content : String
  changeDate : String
  ttl : Int
  prio : Int
  disabled : Bool
deriving DecidableEq

/-- Wire form of a record write request (`record` in `client.go`).
`ttl = none` models the nil pointer: with `json:"ttl,omitempty"` the TTL
field is absent from the serialized request exactly when the pointer is nil. -/
structure WireRecord where
  name : String
  type : String
  content : String
  ttl : Option Int
  prio : Int
  disabled : Bool
deriving DecidableEq

/-- The generic, adapter-facing record (`libdns.Record` of the libdns
version this provider builds against: a plain struct with an ID field).
`ttl` is the Go `time.Duration`, an integer count of nanoseconds. -/
structure LibdnsRecord where
  id : String
  type : String
  name : String
  value : String
  ttl : Int
deriving DecidableEq

/-- The zero value of `libdns.Record`, as produced by `make([]libdns.Record, n)`. -/
def zeroRecord : LibdnsRecord :=
  { id := "", type := "", name := "", value := "", ttl := 0 }

/-- Go `time.Duration.Seconds`: the duration in nanoseconds divided by 10^9,
as an exact rational (standing in for the Go float64). -/
def secondsOfNs (ns : Int) : ℚ :=
  (ns : ℚ) / 1000000000

/-- Go conversion `int(f)` of a float to an integer: truncation toward zero. -/
def goTrunc (q : ℚ) : Int :=
  if 0 ≤ q then ⌊q⌋ else ⌈q⌉

/-- `ionosTTL` from `client.go`: IONOS does not accept TTL values below 60;
if the TTL is not positive the field is left empty (nil pointer), otherwise
the (truncated) integer value is used.  (The identical older variant in the
repository is named `optTTL`.) -/
def ionosTTL (ttl : ℚ) : Option Int :=
  if 0 < ttl then some (goTrunc ttl) else none

/-- Go `strings.ToUpper` on the ASCII strings used for DNS record types. -/
def goToUpper (s : String) : String :=
  String.mk (s.data.map Char.toUpper)

/-- Go `strings.TrimSuffix s "."`: removes at most one trailing dot.  This is
`unFQDN` from `provider.go`. -/
def unFQDN (fqdn : String) : String :=
  if ['.'].isSuffixOf fqdn.data then String.mk fqdn.data.dropLast else fqdn

/-- Modelled from the spec: `libdns.AbsoluteName`, from the external libdns
library (not part of this repository).  It fully qualifies a zone-relative
name with the zone suffix ("fully qualified name including the zone
suffix"), leaving an already-qualified name alone. -/
def absoluteName (name zone : String) : String :=
  if name = "" ∨ name = "@" then zone
  else if zone.data.isSuffixOf name.data then name
  else name ++ "." ++ zone

/-- Modelled from the spec: `libdns.RelativeName`, from the external libdns
library (not part of this repository).  It strips the qualifying zone suffix
and the separating dot, producing "the name fragment excluding it". -/
def relativeName (fqdn zone : String) : String :=
  let t := if zone.data.isSuffixOf fqdn.data then
    String.mk (fqdn.data.take (fqdn.data.length - zone.data.length)) else fqdn
  if ['.'].isSuffixOf t.data then String.mk t.data.dropLast else t

/-- One backslash escape inside a quoted Go string. -/
def unquoteEsc (c : Char) : Option Char :=
  if c = 'n' then some (Char.ofNat 10)
  else if c = 't' then some (Char.ofNat 9)
  else if c = 'r' then some (Char.ofNat 13)
  else if c = '\\' then some '\\'
  else if c = '"' then some '"'
  else if c = '\x27' then some '\x27'
  else none

/-- Interior of a quoted Go string: escape sequences are decoded, an
unescaped quote or a dangling backslash is invalid. -/
def unquoteBody : List Char → Option (List Char)
  | [] => some []
  | '\\' :: c :: rest =>
    match unquoteEsc c with
    | some e => (unquoteBody rest).map (fun cs => e :: cs)
    | none => none
  | ['\\'] => none
  | '"' :: _ => none
  | c :: rest => (unquoteBody rest).map (fun cs => c :: cs)

/-- Modelled from the spec: Go's `strconv.Unquote` (standard library, not
part of this repository) on double-quoted content.  It removes exactly one
layer of quoting that the vendor applies to text-record content and fails if
the content is not validly quoted.  On failure Go returns the empty string
together with the error. -/
def goUnquote (s : String) : Option String :=
  match s.data with
  | '"' :: rest =>
    match rest.getLast? with
    | some '"' => (unquoteBody rest.dropLast).map String.mk
    | _ => none
  | _ => none

/-- `toIonosRecord` from `provider.go`: translate a generic record to the
wire write-request form.  The name is absolute-qualified, the TTL duration is
converted to (optional) whole seconds, `Prio`/`Disabled` stay at their Go
zero values. -/
def toIonosRecord (r : LibdnsRecord) (zoneName : String) : WireRecord :=
  { name := absoluteName r.name zoneName
    type := r.type
    content := r.value
    ttl := ionosTTL (secondsOfNs r.ttl)
    prio := 0
    disabled := false }

/-- `fromIonosRecord` from `provider.go`: translate a wire record to the
generic form.  For TXT records one layer of quoting is removed; the error of
`strconv.Unquote` is discarded (`value, _ = strconv.Unquote(...)`), so on
malformed quoting the value silently becomes the empty string. -/
def fromIonosRecord (zr : ZoneRecord) (zoneName : String) : LibdnsRecord :=
  { id := zr.id
    type := zr.type
    name := relativeName zr.name zoneName
    value := if goToUpper zr.type = "TXT" then (goUnquote zr.content).getD "" else zr.content
    ttl := zr.ttl * 1000000000 }

/-- Error kinds surfaced by the client and provider functions (Go errors are
strings; only the kind and, where the message interpolates one, the count
are modelled). -/
inductive ApiErr where
  /-- network-level or non-2xx failure of one HTTP exchange -/
  | transport : ApiErr
  /-- "record not found in zone" from `ionosFindRecordsInZone` -/
  | notFoundInZone : ApiErr
  /-- "no record id provided" guards in delete/update -/
  | noRecordId : ApiErr
  /-- "zone named not found (...)" from `findZoneByName` -/
  | zoneNotFound : String → ApiErr
  /-- "found unexpected number of records ..., expected 1 (n)" -/
  | ambiguous : Nat → ApiErr
  /-- "expected one record to be created, got n" -/
  | createCount : Nat → ApiErr
deriving DecidableEq

/-- The world the adapter talks to: the vendor's zone listing, its record
store (zone id paired with each record), a counter for vendor-assigned
record ids, and a schedule of injected transport failures, one entry
consumed per HTTP exchange (`true` = that exchange fails).  The store and
the failure schedule stand for the live REST service; the vendor-side state
transitions below are modelled from the spec's description of the
endpoints. -/
structure ApiState where
  zones : List ZoneDescriptor
  recs : List (String × ZoneRecord)
  nextId : Nat
  failures : List Bool
deriving DecidableEq

/-- Consume one entry of the failure schedule (one HTTP exchange). -/
def takeFailure (s : ApiState) : Bool × ApiState :=
  (s.failures.headD false, { s with failures := s.failures.tail })

/-- Modelled from the spec: vendor-assigned record id ("ids assigned by the
vendor"), derived from the id counter. -/
def freshId (n : Nat) : String :=
  "rec-" ++ toString n

/-- Modelled from the spec: the vendor applies its own TTL default when the
TTL field is absent from a write request. -/
def vendorDefaultTTL : Int := 3600

/-- Modelled from the spec: the record stored by the vendor for a write
request (create or update); the vendor fills the TTL default when the field
is absent. -/
def mkZoneRecord (rid : String) (w : WireRecord) : ZoneRecord :=
  { id := rid
    name := w.name
    rootName := ""
    type := w.type
    content := w.content
    changeDate := ""
    ttl := w.ttl.getD vendorDefaultTTL
    prio := w.prio
    disabled := w.disabled }

/-- Modelled from the spec: the server-side record filter of the zone-detail
endpoint — the optional `recordType` / `recordName` query parameters narrow
the returned record set, an empty parameter does not filter. -/
def recordMatches (typ nam : String) (zr : ZoneRecord) : Bool :=
  (typ = "" ∨ zr.type = typ) ∧ (nam = "" ∨ zr.name = nam)

/-- All records the vendor stores for a zone id. -/
def recsOf (s : ApiState) (zid : String) : List ZoneRecord :=
  (s.recs.filter (fun p => p.1 = zid)).map Prod.snd

/-- Response shape of the zone-detail endpoint (`getZoneResponse`). -/
structure GetZoneResponse where
  id : String
  name : String
  type : String
  records : List ZoneRecord
deriving DecidableEq

/-- `ionosGetAllZones` from `client.go`: GET the zone collection; one HTTP
exchange, returning the full zone listing. -/
def ionosGetAllZones (s : ApiState) : Except ApiErr (List ZoneDescriptor) × ApiState :=
  let (fail, s₁) := takeFailure s
  if fail then (.error .transport, s₁) else (.ok s₁.zones, s₁)

/-- `ionosGetZone` from `client.go`: GET one zone, optionally filtering the
returned records server-side by record type and name. -/
def ionosGetZone (zid typ nam : String) (s : ApiState) :
    Except ApiErr GetZoneResponse × ApiState :=
  let (fail, s₁) := takeFailure s
  if fail then (.error .transport, s₁)
  else (.ok { id := zid, name := "", type := "",
              records := (recsOf s₁ zid).filter (recordMatches typ nam) }, s₁)

/-- `ionosFindRecordsInZone` from `client.go`: fetch the zone filtered by
type and name; an empty result set is turned into the error "record not
found in zone" (`len(resp.Records) < 1`). -/
def ionosFindRecordsInZone (zid typ nam : String) (s : ApiState) :
    Except ApiErr (List ZoneRecord) × ApiState :=
  match ionosGetZone zid typ nam s with
  | (.error e, s₁) => (.error e, s₁)
  | (.ok resp, s₁) =>
    if resp.records.length < 1 then (.error .notFoundInZone, s₁) else (.ok resp.records, s₁)

/-- The vendor-side result of updating the record `rid` of zone `zid` with a
write request (modelled from the spec's PUT endpoint). -/
def updateRecs (recs : List (String × ZoneRecord)) (zid rid : String) (w : WireRecord) :
    List (String × ZoneRecord) :=
  recs.map (fun p => if p.1 = zid ∧ p.2.id = rid then (p.1, mkZoneRecord rid w) else p)

/-- `ionosUpdateRecord` from `client.go`: PUT one record.  An empty record id
is rejected before any HTTP exchange ("no record id provided"). -/
def ionosUpdateRecord (zid rid : String) (w : WireRecord) (s : ApiState) :
    Except ApiErr Unit × ApiState :=
  if rid = "" then (.error .noRecordId, s)
  else
    let (fail, s₁) := takeFailure s
    if fail then (.error .transport, s₁)
    else (.ok (), { s₁ with recs := updateRecs s₁.recs zid rid w })

/-- `ionosDeleteRecord` from `client.go`: DELETE one record.  An empty record
id is rejected before any HTTP exchange ("no record id provided"). -/
def ionosDeleteRecord (zid rid : String) (s : ApiState) :
    Except ApiErr Unit × ApiState :=
  if rid = "" then (.error .noRecordId, s)
  else
    let (fail, s₁) := takeFailure s
    if fail then (.error .transport, s₁)
    else (.ok (), { s₁ with recs := s₁.recs.filter (fun p => ¬(p.1 = zid ∧ p.2.id = rid)) })

/-- `ionosCreateRecords` from `client.go`: POST a batch of write requests;
the response is the vendor-assigned records, ids taken from the id counter. -/
def ionosCreateRecords (zid : String) (reqs : List WireRecord) (s : ApiState) :
    Except ApiErr (List ZoneRecord) × ApiState :=
  let (fail, s₁) := takeFailure s
  if fail then (.error .transport, s₁)
  else
    let created := reqs.enum.map (fun iw => mkZoneRecord (freshId (s₁.nextId + iw.1)) iw.2)
    (.ok created,
     { s₁ with recs := s₁.recs ++ created.map (fun zr => (zid, zr)),
               nextId := s₁.nextId + reqs.length })

/-- `findZoneByName` from `provider.go`: fetch the full zone listing and
linearly scan it for the first zone whose name equals the supplied name with
a trailing qualifying dot stripped; no match is the error "zone named not
found". -/
def findZoneByName (zoneName : String) (s : ApiState) :
    Except ApiErr ZoneDescriptor × ApiState :=
  match ionosGetAllZones s with
  | (.error e, s₁) => (.error e, s₁)
  | (.ok zones, s₁) =>
    match zones.find? (fun z => z.name = unFQDN zoneName) with
    | some z => (.ok z, s₁)
    | none => (.error (.zoneNotFound zoneName), s₁)

/-- The create path of `createOrUpdateRecord` in `provider.go`: create a
single-record batch, expecting exactly one created record back. -/
def createNewRecord (zd : ZoneDescriptor) (r : LibdnsRecord) (s : ApiState) :
    Except ApiErr LibdnsRecord × ApiState :=
  match ionosCreateRecords zd.id [toIonosRecord r zd.name] s with
  | (.error e, s₁) => (.error e, s₁)
  | (.ok [c], s₁) => (.ok (fromIonosRecord c zd.name), s₁)
  | (.ok created, s₁) => (.error (.createCount created.length), s₁)

/-- `createOrUpdateRecord` from `provider.go`.  With an explicit id the
record is updated directly.  Otherwise the zone is searched by type and
absolute name: a successful search with exactly one hit updates that record
(reusing its id), any other successful search count is an error, and a
failed search leads to the create path. -/
def createOrUpdateRecord (zd : ZoneDescriptor) (r : LibdnsRecord) (s : ApiState) :
    Except ApiErr LibdnsRecord × ApiState :=
  if r.id ≠ "" then
    match ionosUpdateRecord zd.id r.id (toIonosRecord r zd.name) s with
    | (.error e, s₁) => (.error e, s₁)
    | (.ok _, s₁) => (.ok r, s₁)
  else
    match ionosFindRecordsInZone zd.id r.type (absoluteName r.name zd.name) s with
    | (.ok [t], s₁) =>
      match ionosUpdateRecord zd.id t.id (toIonosRecord r zd.name) s₁ with
      | (.error e, s₂) => (.error e, s₂)
      | (.ok _, s₂) => (.ok { r with id := t.id }, s₂)
    | (.ok existing, s₁) => (.error (.ambiguous existing.length), s₁)
    | (.error _, s₁) => createNewRecord zd r s₁

/-- The per-record loop of `SetRecords` in `provider.go`: records are
processed in order; the first failure returns the results accumulated so far
together with the error. -/
def setLoop (zd : ZoneDescriptor) (rs : List LibdnsRecord) (acc : List LibdnsRecord)
    (s : ApiState) : List LibdnsRecord × Option ApiErr × ApiState :=
  match rs with
  | [] => (acc, none, s)
  | r :: rest =>
    match createOrUpdateRecord zd r s with
    | (.ok nr, s₁) => setLoop zd rest (acc ++ [nr]) s₁
    | (.error e, s₁) => (acc, some e, s₁)

/-- `SetRecords` from `provider.go`: resolve the zone once, then run the
per-record create-or-update loop. -/
def SetRecords (zone : String) (records : List LibdnsRecord) (s : ApiState) :
    List LibdnsRecord × Option ApiErr × ApiState :=
  match findZoneByName zone s with
  | (.error e, s₁) => ([], some e, s₁)
  | (.ok zd, s₁) => setLoop zd records [] s₁

/-- The id-collection loop of `DeleteRecords` in `provider.go`.  A record
with no id and an empty type or name is skipped (safety: avoid deleting the
whole zone); a record with no id but full type and name is looked up by
type and absolute name and every hit is queued; a record carrying an id is
queued directly with no lookup. -/
def collectQueue (zd : ZoneDescriptor) (rs : List LibdnsRecord) (s : ApiState) :
    Except ApiErr (List LibdnsRecord) × ApiState :=
  match rs with
  | [] => (.ok [], s)
  | r :: rest =>
    if r.id = "" then
      if r.type = "" ∨ r.name = "" then collectQueue zd rest s
      else
        match ionosFindRecordsInZone zd.id r.type (absoluteName r.name zd.name) s with
        | (.error e, s₁) => (.error e, s₁)
        | (.ok found, s₁) =>
          match collectQueue zd rest s₁ with
          | (.ok q, s₂) => (.ok (found.map (fun zr => fromIonosRecord zr zd.name) ++ q), s₂)
          | (.error e, s₂) => (.error e, s₂)
    else
      match collectQueue zd rest s with
      | (.ok q, s₁) => (.ok (r :: q), s₁)
      | (.error e, s₁) => (.error e, s₁)

/-- The deletion loop of `DeleteRecords` in `provider.go`: delete the queued
records one at a time, aborting on the first failure. -/
def deleteAll (zid : String) (queue : List LibdnsRecord) (s : ApiState) :
    Option ApiErr × ApiState :=
  match queue with
  | [] => (none, s)
  | r :: rest =>
    match ionosDeleteRecord zid r.id s with
    | (.ok _, s₁) => deleteAll zid rest s₁
    | (.error e, s₁) => (some e, s₁)

/-- `DeleteRecords` from `provider.go`: resolve the zone, collect the delete
queue, then delete one record at a time.  On any failure the returned record
list is nil (the Go code returns `nil, err`), even when records had already
been deleted before the failure; on success the full queue is returned. -/
def DeleteRecords (zone : String) (records : List LibdnsRecord) (s : ApiState) :
    List LibdnsRecord × Option ApiErr × ApiState :=
  match findZoneByName zone s with
  | (.error e, s₁) => ([], some e, s₁)
  | (.ok zd, s₁) =>
    match collectQueue zd records s₁ with
    | (.error e, s₂) => ([], some e, s₂)
    | (.ok queue, s₂) =>
      match deleteAll zd.id queue s₂ with
      | (none, s₃) => (queue, none, s₃)
      | (some e, s₃) => ([], some e, s₃)

/-- The response-filling loop of `AppendRecords` in `provider.go`:
`res := make([]libdns.Record, len(records))` followed by
`for i, r := range newRecords { res[i] = fromIonosRecord(r, zone) }`.
Writing past the end of `res` is Go's out-of-range panic, modelled as
`none`. -/
def fillLoop (res : List LibdnsRecord) (i : Nat) (newRecords : List ZoneRecord)
    (zoneName : String) : Option (List LibdnsRecord) :=
  match newRecords with
  | [] => some res
  | zr :: rest =>
    if i < res.length then
      fillLoop (res.set i (fromIonosRecord zr zoneName)) (i + 1) rest zoneName
    else none

/-- The result slice of `AppendRecords`: allocated with the length of the
input record list and filled at the positions of the vendor's batch-create
response. -/
def fillResults (records : List LibdnsRecord) (newRecords : List ZoneRecord)
    (zoneName : String) : Option (List LibdnsRecord) :=
  fillLoop (List.replicate records.length zeroRecord) 0 newRecords zoneName

/-- `AppendRecords` from `provider.go`: resolve the zone, translate all
inputs to wire form, create them in one batch, and translate the response
back into the pre-allocated result slice.  `none` is the out-of-range panic
of the filling loop. -/
def AppendRecords (zone : String) (records : List LibdnsRecord) (s : ApiState) :
    Option (Except ApiErr (List LibdnsRecord) × ApiState) :=
  match findZoneByName zone s with
  | (.error e, s₁) => some (.error e, s₁)
  | (.ok zd, s₁) =>
    match ionosCreateRecords zd.id (records.map (fun r => toIonosRecord r zd.name)) s₁ with
    | (.error e, s₂) => some (.error e, s₂)
    | (.ok newRecords, s₂) =>
      match fillResults records newRecords zd.name with
      | some res => some (.ok res, s₂)
      | none => none

/-- Translating a generic record to wire form and back against the same zone
name (the round trip of the spec's testable properties).  The wire write
request carries no id and, when the TTL is absent, no TTL value to translate
back, so the round trip through the read form is only defined when the TTL
field is present. -/
def roundTrip (r : LibdnsRecord) (zoneName : String) : Option LibdnsRecord :=
  let w := toIonosRecord r zoneName
  match w.ttl with
  | none => none
  | some t =>
    some (fromIonosRecord
      { id := "", name := w.name, rootName := "", type := w.type, content := w.content,
        changeDate := "", ttl := t, prio := w.prio, disabled := w.disabled } zoneName)

deriving instance DecidableEq for Except

/-! Concrete sample data used to instantiate the theorems below. -/

/-- A sample zone descriptor. -/
def zdW : ZoneDescriptor := { name := "example.com", id := "z1", type := "NATIVE" }

/-- A sample stored A record of the zone `z1`. -/
def zrA : ZoneRecord :=
  { id := "t1", name := "a.example.com", rootName := "", type := "A", content := "1.2.3.4",
    changeDate := "", ttl := 300, prio := 0, disabled := false }

/-- A second stored A record with the same type and name as `zrA`. -/
def zrA2 : ZoneRecord :=
  { id := "t2", name := "a.example.com", rootName := "", type := "A", content := "9.9.9.9",
    changeDate := "", ttl := 300, prio := 0, disabled := false }

/-- A sample stored TXT record with validly quoted content. -/
def zrTxt : ZoneRecord :=
  { id := "r1", name := "a.example.com", rootName := "", type := "TXT", content := "\"hello\"",
    changeDate := "", ttl := 300, prio := 0, disabled := false }

/-- A sample stored TXT record whose content is not validly quoted. -/
def zrTxtBad : ZoneRecord :=
  { id := "r2", name := "a.example.com", rootName := "", type := "TXT", content := "hello",
    changeDate := "", ttl := 300, prio := 0, disabled := false }

/-- A generic input record without an explicit id. -/
def rNoId : LibdnsRecord := { id := "", type := "A", name := "a", value := "5.6.7.8", ttl := 0 }

/-- A generic input record with a 1.5-second TTL. -/
def rFrac : LibdnsRecord :=
  { id := "", type := "A", name := "w", value := "1.2.3.4", ttl := 1500000000 }

/-- A generic input record with TTL zero. -/
def rZeroTTL : LibdnsRecord :=
  { id := "", type := "A", name := "w", value := "1.2.3.4", ttl := 0 }

/-- A generic input record carrying an explicit id. -/
def rWithId : LibdnsRecord := { id := "x1", type := "A", name := "a", value := "v", ttl := 0 }

/-- Generic input records carrying further explicit ids. -/
def rIdA : LibdnsRecord := { id := "a1", type := "A", name := "a", value := "v", ttl := 0 }

def rIdB : LibdnsRecord := { id := "b1", type := "A", name := "b", value := "v", ttl := 0 }

def rIdC : LibdnsRecord := { id := "c1", type := "A", name := "c", value := "v", ttl := 0 }

/-- An under-specified delete input: no id, no type, no name. -/
def rSkip : LibdnsRecord := { id := "", type := "", name := "", value := "", ttl := 0 }

/-- A generic A record with a 120-second TTL. -/
def rA120 : LibdnsRecord :=
  { id := "", type := "A", name := "w", value := "1.2.3.4", ttl := 120000000000 }

/-- A generic TXT record with a 120-second TTL. -/
def rTxt120 : LibdnsRecord :=
  { id := "", type := "TXT", name := "a", value := "v", ttl := 120000000000 }

/-- A generic record with the positive TTL of half a second. -/
def rHalfSec : LibdnsRecord := { id := "", type := "A", name := "a", value := "v", ttl := 500000000 }

/-- A state with one zone, one stored record and no injected failures. -/
def sOne : ApiState := { zones := [zdW], recs := [("z1", zrA)], nextId := 0, failures := [] }

/-- A state with one zone, two stored records of the same type and name. -/
def sTwo : ApiState :=
  { zones := [zdW], recs := [("z1", zrA), ("z1", zrA2)], nextId := 0, failures := [] }

/-- A state with one zone, no stored records and no injected failures. -/
def sEmpty : ApiState := { zones := [zdW], recs := [], nextId := 0, failures := [] }

/-- A state whose second HTTP exchange fails. -/
def sFailSecond : ApiState :=
  { zones := [zdW], recs := [], nextId := 0, failures := [false, true] }

/-- The state `sFailSecond` after one exchange. -/
def sFailNext : ApiState := { zones := [zdW], recs := [], nextId := 0, failures := [true] }

/-- The state `sFailSecond` after two exchanges. -/
def sDrained : ApiState := { zones := [zdW], recs := [], nextId := 0, failures := [] }

/-- A state whose first HTTP exchange fails. -/
def sFailFirst : ApiState := { zones := [zdW], recs := [], nextId := 0, failures := [true] }

/-- A state with one matching stored record where the second of three
exchanges fails: zone listing succeeds, the type+name lookup fails, the
subsequent create succeeds. -/
def sLookupFails : ApiState :=
  { zones := [zdW], recs := [("z1", zrA)], nextId := 0, failures := [false, true, false] }

/-- Zone descriptors for the zone-resolution sample listing. -/
def zdOther : ZoneDescriptor := { name := "other.com", id := "z0", type := "NATIVE" }

def zdDup : ZoneDescriptor := { name := "example.com", id := "z2", type := "NATIVE" }

/-- A state whose zone listing holds a non-matching zone and two zones with
the name `example.com`. -/
def sZones : ApiState :=
  { zones := [zdOther, zdW, zdDup], recs := [], nextId := 0, failures := [] }

/-! Helper lemmas about the TTL conversion. -/

lemma goTrunc_intCast_div (ns : Int) (h : 0 ≤ (ns : ℚ) / 1000000000) :
    goTrunc ((ns : ℚ) / 1000000000) = ns / 1000000000 := by
  have hfl := Rat.floor_intCast_div_natCast ns 1000000000
  push_cast at hfl
  rw [goTrunc, if_pos h, hfl]

lemma ionosTTL_secondsOfNs (ns : Int) :
    ionosTTL (secondsOfNs ns) = if 0 < ns then some (ns / 1000000000) else none := by
  have hpos : (0 : ℚ) < secondsOfNs ns ↔ 0 < ns := by
    rw [secondsOfNs, lt_div_iff₀ (by norm_num : (0 : ℚ) < 1000000000)]
    simp
  by_cases h : 0 < ns
  · rw [ionosTTL, if_pos (hpos.mpr h), if_pos h, secondsOfNs,
      goTrunc_intCast_div ns (le_of_lt (hpos.mpr h))]
  · rw [ionosTTL, if_neg (fun hq => h (hpos.mp hq)), if_neg h]

lemma toIonosRecord_ttl (r : LibdnsRecord) (z : String) :
    (toIonosRecord r z).ttl = if 0 < r.ttl then some (r.ttl / 1000000000) else none := by
  rw [toIonosRecord, ionosTTL_secondsOfNs]

/-- C2.  The claim states that a positive TTL is passed through unchanged as
whole seconds and that the literal 0 is never sent; in fact the positive TTL
is truncated to whole seconds, so a positive TTL below one second is sent as
the literal 0.  Amended statement: the TTL field of the wire write request
is absent whenever the record's TTL is not positive; a positive TTL is sent
truncated to whole seconds; the literal value 0 is sent exactly for the
positive TTLs below one second. -/
theorem C2_wire_ttl (r : LibdnsRecord) (z : String) :
    (r.ttl ≤ 0 → (toIonosRecord r z).ttl = none) ∧
    (0 < r.ttl → (toIonosRecord r z).ttl = some (r.ttl / 1000000000)) ∧
    ((toIonosRecord r z).ttl = some 0 ↔ 0 < r.ttl ∧ r.ttl < 1000000000) := by
  rw [toIonosRecord_ttl]
  refine ⟨fun h => if_neg (by omega), fun h => if_pos h, ?_⟩
  by_cases h : 0 < r.ttl
  · rw [if_pos h]
    constructor
    · intro he
      have hz : r.ttl / 1000000000 = 0 := Option.some.inj he
      omega
    · intro hb
      have hz : r.ttl / 1000000000 = 0 := by omega
      rw [hz]
  · rw [if_neg h]
    constructor
    · intro he
      exact absurd he (by simp)
    · intro hb
      omega

/-- Witness for C2: a 120-second TTL is sent as the literal 120. -/
theorem C2_wire_ttl_witness :
    0 < rTxt120.ttl ∧ (toIonosRecord rTxt120 "example.com").ttl = some 120 := by
  refine ⟨by decide, ?_⟩
  have h := (C2_wire_ttl rTxt120 "example.com").2.1 (by decide)
  rw [h]
  decide

/-- Counterexample to C2 as stated: a record with the positive TTL of half a
second (500000000 ns) produces a wire request whose TTL field is present and
holds the literal value 0. -/
theorem C2_wire_ttl_counterexample :
    0 < rHalfSec.ttl ∧ (toIonosRecord rHalfSec "example.com").ttl = some 0 := by
  refine ⟨by norm_num [rHalfSec], ?_⟩
  rw [toIonosRecord_ttl]
  norm_num [rHalfSec]

/-- C6.  The claim fails for TTLs that are not a positive whole number of
seconds (the wire TTL field is integer seconds, absent when not positive).
Amended statement: for every non-text generic record whose TTL is a positive
whole number of seconds, translating to wire form and back against the same
zone name yields the original value and the original TTL. -/
theorem C6_round_trip (r : LibdnsRecord) (z : String) (k : Int)
    (htype : goToUpper r.type ≠ "TXT") (hk : 0 < k) (httl : r.ttl = k * 1000000000) :
    (roundTrip r z).map LibdnsRecord.value = some r.value ∧
    (roundTrip r z).map LibdnsRecord.ttl = some r.ttl := by
  have hwt : (toIonosRecord r z).ttl = some k := by
    rw [toIonosRecord_ttl, if_pos (by omega : 0 < r.ttl), httl,
      Int.mul_ediv_cancel k (by norm_num : (1000000000 : Int) ≠ 0)]
  constructor
  · simp only [roundTrip, hwt]
    simp [fromIonosRecord, toIonosRecord, htype]
  · simp only [roundTrip, hwt]
    simp [fromIonosRecord, httl]

/-- Witness for C6: an A record with a 120-second TTL round-trips to the
original value and TTL. -/
theorem C6_round_trip_witness :
    (roundTrip rA120 "example.com").map LibdnsRecord.value = some rA120.value ∧
    (roundTrip rA120 "example.com").map LibdnsRecord.ttl = some rA120.ttl :=
  C6_round_trip rA120 "example.com" 120 (by decide) (by decide) (by decide)

/-- Counterexample to C6 as stated: the non-text record with the 1.5-second
TTL comes back from the round trip with a 1-second TTL (the wire form holds
whole seconds), and the non-text record with TTL 0 produces a wire request
with no TTL field at all, so no record can be translated back from it. -/
theorem C6_round_trip_counterexample :
    (roundTrip rFrac "example.com").map LibdnsRecord.ttl = some 1000000000 ∧
    rFrac.ttl ≠ 1000000000 ∧
    roundTrip rZeroTTL "example.com" = none := by
  have h1 : (toIonosRecord rFrac "example.com").ttl = some 1 := by
    rw [toIonosRecord_ttl]
    norm_num [rFrac]
  have h0 : (toIonosRecord rZeroTTL "example.com").ttl = none := by
    rw [toIonosRecord_ttl]
    norm_num [rZeroTTL]
  refine ⟨?_, by norm_num [rFrac], ?_⟩
  · simp only [roundTrip, h1]
    simp [fromIonosRecord]
  · simp only [roundTrip, h0]

/-- C7.  The claim states that malformed quoting makes the translation fail
with a decode error; in fact `fromIonosRecord` discards the unquote error
(`value, _ = strconv.Unquote(...)`) and always succeeds.  Amended statement:
for a wire record of text type, exactly one layer of quoting is removed when
the content is validly quoted, and when it is not the translation still
succeeds, with the empty string as the value. -/
theorem C7_txt_unquote (zr : ZoneRecord) (z : String) (h : goToUpper zr.type = "TXT") :
    (∀ v, goUnquote zr.content = some v → (fromIonosRecord zr z).value = v) ∧
    (goUnquote zr.content = none → (fromIonosRecord zr z).value = "") := by
  constructor
  · intro v hv
    simp [fromIonosRecord, h, hv]
  · intro hv
    simp [fromIonosRecord, h, hv]

/-- Witness for C7: wire content `"\"hello\""` decodes to the value `hello`. -/
theorem C7_txt_unquote_witness :
    goUnquote zrTxt.content = some "hello" ∧
    (fromIonosRecord zrTxt "example.com").value = "hello" :=
  ⟨by decide, (C7_txt_unquote zrTxt "example.com" (by decide)).1 "hello" (by decide)⟩

/-- Counterexample to C7 as stated: the text record whose content `hello` is
not validly quoted translates successfully — to the empty value — instead of
failing with a decode error (`fromIonosRecord` is total; the Go code
discards the unquote error). -/
theorem C7_txt_unquote_counterexample :
    goUnquote zrTxtBad.content = none ∧
    (fromIonosRecord zrTxtBad "example.com").value = "" ∧
    zrTxtBad.content ≠ "" := by
  refine ⟨by decide, ?_, by decide⟩
  decide

/-! Helper lemmas for runs without injected failures. -/

lemma takeFailure_nil {s : ApiState} (h : s.failures = []) : takeFailure s = (false, s) := by
  cases s
  simp_all [takeFailure]

lemma ionosGetAllZones_nil {s : ApiState} (h : s.failures = []) :
    ionosGetAllZones s = (.ok s.zones, s) := by
  simp only [ionosGetAllZones, takeFailure_nil h]
  simp

lemma ionosGetZone_nil {s : ApiState} (h : s.failures = []) (zid typ nam : String) :
    ionosGetZone zid typ nam s =
      (.ok { id := zid, name := "", type := "",
             records := (recsOf s zid).filter (recordMatches typ nam) }, s) := by
  simp only [ionosGetZone, takeFailure_nil h]
  simp

lemma ionosFindRecordsInZone_nil {s : ApiState} (h : s.failures = []) (zid typ nam : String) :
    ionosFindRecordsInZone zid typ nam s =
      (if ((recsOf s zid).filter (recordMatches typ nam)).length < 1
       then (.error .notFoundInZone, s)
       else (.ok ((recsOf s zid).filter (recordMatches typ nam)), s)) := by
  simp only [ionosFindRecordsInZone, ionosGetZone_nil h]

lemma ionosUpdateRecord_nil {s : ApiState} (h : s.failures = []) (zid rid : String)
    (w : WireRecord) (hr : rid ≠ "") :
    ionosUpdateRecord zid rid w s = (.ok (), { s with recs := updateRecs s.recs zid rid w }) := by
  simp only [ionosUpdateRecord, if_neg hr, takeFailure_nil h]
  simp

lemma ionosCreateRecords_single_nil {s : ApiState} (h : s.failures = []) (zid : String)
    (w : WireRecord) :
    ionosCreateRecords zid [w] s =
      (.ok [mkZoneRecord (freshId s.nextId) w],
       { s with recs := s.recs ++ [(zid, mkZoneRecord (freshId s.nextId) w)],
                nextId := s.nextId + 1 }) := by
  simp only [ionosCreateRecords, takeFailure_nil h]
  simp [List.enum]

lemma findZoneByName_nil {s : ApiState} (h : s.failures = []) (zoneName : String) :
    findZoneByName zoneName s =
      (match s.zones.find? (fun z => z.name = unFQDN zoneName) with
       | some z => (.ok z, s)
       | none => (.error (.zoneNotFound zoneName), s)) := by
  simp only [findZoneByName, ionosGetAllZones_nil h]

lemma find?_first {p : ZoneDescriptor → Bool} :
    ∀ (pre : List ZoneDescriptor) (z : ZoneDescriptor) (post : List ZoneDescriptor),
      p z = true → (∀ y ∈ pre, p y = false) → (pre ++ z :: post).find? p = some z := by
  intro pre
  induction pre with
  | nil =>
    intro z post hz _
    simp [List.find?_cons, hz]
  | cons y ys ih =>
    intro z post hz hpre
    have hy : p y = false := hpre y (by simp)
    simp only [List.cons_append, List.find?_cons, hy]
    exact ih z post hz (fun x hx => hpre x (by simp [hx]))

/-- C9.  Zone resolution: with the zone listing fetched successfully, the
resolver compares each listed zone against the supplied name with one
trailing dot stripped, returns the first exact match, and errors exactly
when no listed zone matches. -/
theorem C9_zone_resolution (s : ApiState) (zoneName : String) (h : s.failures = []) :
    (findZoneByName zoneName s =
      (match s.zones.find? (fun z => z.name = unFQDN zoneName) with
       | some z => (.ok z, s)
       | none => (.error (.zoneNotFound zoneName), s))) ∧
    ((findZoneByName zoneName s).1 = .error (.zoneNotFound zoneName) ↔
      ∀ z ∈ s.zones, z.name ≠ unFQDN zoneName) ∧
    (∀ z pre post, s.zones = pre ++ z :: post → z.name = unFQDN zoneName →
      (∀ y ∈ pre, y.name ≠ unFQDN zoneName) →
      (findZoneByName zoneName s).1 = .ok z) := by
  refine ⟨findZoneByName_nil h zoneName, ?_, ?_⟩
  · rw [findZoneByName_nil h zoneName]
    cases hf : s.zones.find? (fun z => z.name = unFQDN zoneName) with
    | none =>
      simp only [List.find?_eq_none, decide_eq_true_eq] at hf
      simpa using hf
    | some z =>
      have hz := List.find?_some hf
      simp only [decide_eq_true_eq] at hz
      have hmem := List.mem_of_find?_eq_some hf
      simp
      exact ⟨z, hmem, hz⟩
  · intro z pre post hzs hz hpre
    rw [findZoneByName_nil h zoneName, hzs]
    rw [find?_first pre z post (by simp [hz])
      (fun y hy => by simpa using hpre y hy)]

/-- Witness for C9: the supplied name `example.com.` (with its qualifying
dot) resolves, among a listing holding a non-matching zone and two zones
named `example.com`, to the first of the two. -/
theorem C9_zone_resolution_witness :
    (findZoneByName "example.com." sZones).1 = .ok zdW :=
  (C9_zone_resolution sZones "example.com." rfl).2.2 zdW [zdOther] [zdDup]
    (by decide) (by decide) (by decide)

/-! Helper lemmas for the delete queue. -/

lemma collectQueue_all_skip (zd : ZoneDescriptor) :
    ∀ (rs : List LibdnsRecord) (s : ApiState),
      (∀ r ∈ rs, r.id = "" ∧ (r.type = "" ∨ r.name = "")) →
      collectQueue zd rs s = (.ok [], s) := by
  intro rs
  induction rs with
  | nil =>
    intro s _
    rfl
  | cons r rest ih =>
    intro s hall
    obtain ⟨hid, hty⟩ := hall r (by simp)
    simp only [collectQueue]
    rw [if_pos hid, if_pos hty]
    exact ih s (fun x hx => hall x (by simp [hx]))

/-- C3.  Delete inputs: a record with no explicit id whose type or name is
empty is skipped entirely — the queue collection continues on the remaining
records with the state untouched, so no lookup happens and nothing is queued
for it; a record with a non-empty explicit id is queued directly — the
collection recurses on the remaining records with the state untouched, so no
lookup happens for it either; and a `DeleteRecords` call whose inputs are
all skippable deletes nothing and succeeds with an empty result. -/
theorem C3_delete_inputs (zd : ZoneDescriptor) (r : LibdnsRecord) (rest : List LibdnsRecord)
    (s : ApiState) :
    (r.id = "" → r.type = "" ∨ r.name = "" →
      collectQueue zd (r :: rest) s = collectQueue zd rest s) ∧
    (r.id ≠ "" →
      collectQueue zd (r :: rest) s =
        (match collectQueue zd rest s with
         | (.ok q, s₁) => (.ok (r :: q), s₁)
         | (.error e, s₁) => (.error e, s₁))) ∧
    (∀ zone records sa zda s₁,
      findZoneByName zone sa = (.ok zda, s₁) →
      (∀ x ∈ records, x.id = "" ∧ (x.type = "" ∨ x.name = "")) →
      DeleteRecords zone records sa = ([], none, s₁)) := by
  refine ⟨?_, ?_, ?_⟩
  · intro hid hty
    simp only [collectQueue]
    rw [if_pos hid, if_pos hty]
  · intro hid
    simp only [collectQueue]
    rw [if_neg hid]
  · intro zone records sa zda s₁ hfind hall
    simp only [DeleteRecords, hfind]
    rw [collectQueue_all_skip zda records s₁ hall]
    rfl

/-- Witness for C3: the under-specified input is skipped, the input with the
explicit id `a1` is queued directly, and deleting only under-specified
inputs deletes nothing. -/
theorem C3_delete_inputs_witness :
    collectQueue zdW (rSkip :: []) sEmpty = collectQueue zdW [] sEmpty ∧
    collectQueue zdW (rIdA :: []) sEmpty =
      (match collectQueue zdW [] sEmpty with
       | (.ok q, s₁) => (.ok (rIdA :: q), s₁)
       | (.error e, s₁) => (.error e, s₁)) ∧
    DeleteRecords "example.com" [rSkip] sOne = ([], none, sOne) :=
  ⟨(C3_delete_inputs zdW rSkip [] sEmpty).1 (by decide) (by decide),
   (C3_delete_inputs zdW rIdA [] sEmpty).2.1 (by decide),
   (C3_delete_inputs zdW rIdA [] sEmpty).2.2 "example.com" [rSkip] sOne zdW sOne
     (by decide) (by decide)⟩

/-! Helper lemmas for the response-filling loop of AppendRecords. -/

lemma fillLoop_isSome :
    ∀ (ns : List ZoneRecord) (res : List LibdnsRecord) (i : Nat) (zn : String),
      (fillLoop res i ns zn).isSome ↔ (ns = [] ∨ i + ns.length ≤ res.length) := by
  intro ns
  induction ns with
  | nil =>
    intro res i zn
    simp [fillLoop]
  | cons zr rest ih =>
    intro res i zn
    simp only [fillLoop]
    by_cases hi : i < res.length
    · rw [if_pos hi, ih]
      simp only [List.length_set, List.length_cons]
      constructor
      · rintro (h | h)
        · subst h
          right
          simpa using hi
        · right
          omega
      · rintro (h | h)
        · cases h
        · cases rest with
          | nil =>
            left
            rfl
          | cons b bs =>
            right
            simp at h ⊢
            omega
    · rw [if_neg hi]
      simp only [Option.isSome_none, Bool.false_eq_true, false_iff]
      rintro (h | h)
      · cases h
      · simp at h
        omega

lemma fillLoop_some :
    ∀ (ns : List ZoneRecord) (res : List LibdnsRecord) (i : Nat) (zn : String)
      (out : List LibdnsRecord),
      fillLoop res i ns zn = some out →
      out.length = res.length ∧ ∀ j, i + ns.length ≤ j → out[j]? = res[j]? := by
  intro ns
  induction ns with
  | nil =>
    intro res i zn out h
    simp only [fillLoop, Option.some.injEq] at h
    subst h
    exact ⟨rfl, fun j _ => rfl⟩
  | cons zr rest ih =>
    intro res i zn out h
    simp only [fillLoop] at h
    by_cases hi : i < res.length
    · rw [if_pos hi] at h
      obtain ⟨hlen, hout⟩ := ih (res.set i (fromIonosRecord zr zn)) (i + 1) zn out h
      refine ⟨by simpa using hlen, fun j hj => ?_⟩
      rw [hout j (by simp at hj ⊢; omega)]
      exact List.getElem?_set_ne (by simp at hj; omega)
    · rw [if_neg hi] at h
      cases h

/-- C10.  The result slice of `AppendRecords` has the length of the input
record list and is filled by position from the vendor's batch-create
response: the filling loop completes without an out-of-range access exactly
when the response holds at most as many records as the input, and when it
holds fewer, the trailing result entries remain the zero-valued record. -/
theorem C10_append_fill (records : List LibdnsRecord) (newRecords : List ZoneRecord)
    (zn : String) :
    ((fillResults records newRecords zn).isSome ↔ newRecords.length ≤ records.length) ∧
    (∀ out, fillResults records newRecords zn = some out →
      out.length = records.length ∧
      ∀ j, newRecords.length ≤ j → j < records.length → out[j]? = some zeroRecord) := by
  constructor
  · rw [fillResults, fillLoop_isSome]
    simp only [List.length_replicate, Nat.zero_add]
    constructor
    · rintro (h | h)
      · simp [h]
      · exact h
    · intro h
      right
      exact h
  · intro out h
    obtain ⟨hlen, hout⟩ := fillLoop_some newRecords _ 0 zn out h
    refine ⟨by simpa using hlen, fun j hj hjlt => ?_⟩
    rw [hout j (by omega), List.getElem?_replicate]
    simp [hjlt]

/-- Witness for C10: with two input records and a one-record response the
filling completes and the trailing result entry is the zero-valued record. -/
theorem C10_append_fill_witness :
    (fillResults [rIdA, rIdB] [zrA] "example.com").isSome ∧
    [fromIonosRecord zrA "example.com", zeroRecord][1]? = some zeroRecord :=
  ⟨(C10_append_fill [rIdA, rIdB] [zrA] "example.com").1.mpr (by decide),
   (((C10_append_fill [rIdA, rIdB] [zrA] "example.com").2
       [fromIonosRecord zrA "example.com", zeroRecord] (by decide)).2 1
     (by decide) (by decide))⟩

/-- C1.  Set reconciliation for a record without an explicit id, over any
vendor state with no injected failures: with `ms` the stored records of the
zone matching the input's type and absolute name, exactly one match makes
`createOrUpdateRecord` (the per-record routine of `SetRecords`) update that
record in place, reusing its id for the returned record; zero matches make
it create one new record; two or more matches make it fail with the
ambiguous-match error, leaving the vendor state untouched. -/
theorem C1_set_reconciliation (zd : ZoneDescriptor) (r : LibdnsRecord) (s : ApiState)
    (ms : List ZoneRecord) (hid : r.id = "") (hfail : s.failures = [])
    (hms : ms = (recsOf s zd.id).filter (recordMatches r.type (absoluteName r.name zd.name))) :
    (∀ t, ms = [t] → t.id ≠ "" →
      createOrUpdateRecord zd r s =
        (.ok { r with id := t.id },
         { s with recs := updateRecs s.recs zd.id t.id (toIonosRecord r zd.name) })) ∧
    (ms = [] →
      createOrUpdateRecord zd r s =
        (.ok (fromIonosRecord (mkZoneRecord (freshId s.nextId) (toIonosRecord r zd.name)) zd.name),
         { s with
             recs := s.recs ++ [(zd.id, mkZoneRecord (freshId s.nextId) (toIonosRecord r zd.name))],
             nextId := s.nextId + 1 })) ∧
    (2 ≤ ms.length →
      createOrUpdateRecord zd r s = (.error (.ambiguous ms.length), s)) := by
  have hcond : ¬(r.id ≠ "") := by simp [hid]
  refine ⟨?_, ?_, ?_⟩
  · intro t hms1 ht
    simp only [createOrUpdateRecord]
    rw [if_neg hcond, ionosFindRecordsInZone_nil hfail, ← hms, hms1]
    rw [if_neg (by norm_num)]
    simp only [ionosUpdateRecord_nil hfail zd.id t.id (toIonosRecord r zd.name) ht]
  · intro hms0
    simp only [createOrUpdateRecord]
    rw [if_neg hcond, ionosFindRecordsInZone_nil hfail, ← hms, hms0]
    rw [if_pos (by norm_num)]
    simp only [createNewRecord, ionosCreateRecords_single_nil hfail]
  · intro hlen
    simp only [createOrUpdateRecord]
    rw [if_neg hcond, ionosFindRecordsInZone_nil hfail, ← hms]
    match ms, hlen with
    | a :: b :: tl, _ =>
      rw [if_neg (by simp)]

/-- Witness for C1: in the state holding exactly one matching A record
(id `t1`), the id-less input updates that record in place and comes back
carrying the id `t1`. -/
theorem C1_set_reconciliation_witness :
    createOrUpdateRecord zdW rNoId sOne =
      (.ok { rNoId with id := zrA.id },
       { sOne with recs := updateRecs sOne.recs zdW.id zrA.id (toIonosRecord rNoId zdW.name) }) :=
  (C1_set_reconciliation zdW rNoId sOne [zrA] (by decide) rfl (by decide)).1 zrA rfl (by decide)

/-! Helper lemma for the deletion loop. -/

lemma deleteAll_append (zid : String) :
    ∀ (xs ys : List LibdnsRecord) (s : ApiState),
      deleteAll zid (xs ++ ys) s =
        (match deleteAll zid xs s with
         | (none, s₁) => deleteAll zid ys s₁
         | (some e, s₁) => (some e, s₁)) := by
  intro xs
  induction xs with
  | nil =>
    intro ys s
    rfl
  | cons r rest ih =>
    intro ys s
    rw [List.cons_append]
    simp only [deleteAll]
    rcases ionosDeleteRecord zid r.id s with ⟨res, s₁⟩
    cases res with
    | ok u => exact ih ys s₁
    | error e => rfl

/-- C4.  `DeleteRecords` fails fast: with the queued records deleted one at
a time, the first failing delete ends the loop — the records after it are
never submitted for deletion and the loop stops in the state the failing
call left behind — and on every error path `DeleteRecords` reports an empty
record list, so the records already deleted before the failure are not
reported back as deleted. -/
theorem C4_delete_fail_fast :
    (∀ (zid : String) (pre : List LibdnsRecord) (r : LibdnsRecord) (rest : List LibdnsRecord)
       (s s₁ s₂ : ApiState) (e : ApiErr),
      deleteAll zid pre s = (none, s₁) →
      ionosDeleteRecord zid r.id s₁ = (.error e, s₂) →
      deleteAll zid (pre ++ r :: rest) s = (some e, s₂)) ∧
    (∀ (zone : String) (records : List LibdnsRecord) (s : ApiState),
      ((DeleteRecords zone records s).2.1).isSome → (DeleteRecords zone records s).1 = []) := by
  constructor
  · intro zid pre r rest s s₁ s₂ e hpre hr
    rw [deleteAll_append zid pre (r :: rest) s, hpre]
    simp only [deleteAll, hr]
  · intro zone records s h
    simp only [DeleteRecords] at h ⊢
    split at h
    next e s₁ heq =>
      rfl
    next zd s₁ heq =>
      split at h
      next e s₂ heq2 =>
        rfl
      next queue s₂ heq2 =>
        split at h
        next s₃ heq3 =>
          simp at h
        next e s₃ heq3 =>
          rfl

/-- Witness for C4: of the three queued records the second delete fails;
the third is never deleted, and the delete run reports the empty list even
though the first record had already been deleted. -/
theorem C4_delete_fail_fast_witness :
    deleteAll "z1" [rIdA, rIdB, rIdC] sFailSecond = (some .transport, sDrained) ∧
    (DeleteRecords "example.com" [rIdA] sFailSecond).1 = [] :=
  ⟨(C4_delete_fail_fast).1 "z1" [rIdA] rIdB [rIdC] sFailSecond sFailNext sDrained .transport
      (by decide) (by decide),
   (C4_delete_fail_fast).2 "example.com" [rIdA] sFailSecond (by decide)⟩

/-! Helper lemma for the per-record loop of SetRecords. -/

lemma setLoop_append (zd : ZoneDescriptor) :
    ∀ (xs ys acc : List LibdnsRecord) (s : ApiState),
      setLoop zd (xs ++ ys) acc s =
        (match setLoop zd xs acc s with
         | (oks, none, s₁) => setLoop zd ys oks s₁
         | (oks, some e, s₁) => (oks, some e, s₁)) := by
  intro xs
  induction xs with
  | nil =>
    intro ys acc s
    rfl
  | cons r rest ih =>
    intro ys acc s
    rw [List.cons_append]
    simp only [setLoop]
    rcases createOrUpdateRecord zd r s with ⟨res, s₁⟩
    cases res with
    | ok nr => exact ih ys (acc ++ [nr]) s₁
    | error e => rfl

/-- C8.  `SetRecords` processes its inputs sequentially: when the records of
`pre` all succeed and the next record `r` fails, the call returns exactly
the results accumulated for `pre` together with the error, and the
remaining records are not processed (the run ends in the state the failing
record left behind). -/
theorem C8_set_partial (zone : String) (pre : List LibdnsRecord) (r : LibdnsRecord)
    (rest : List LibdnsRecord) (s s₀ s₁ s₂ : ApiState) (zd : ZoneDescriptor)
    (oks : List LibdnsRecord) (e : ApiErr)
    (hfind : findZoneByName zone s = (.ok zd, s₀))
    (hpre : setLoop zd pre [] s₀ = (oks, none, s₁))
    (hr : createOrUpdateRecord zd r s₁ = (.error e, s₂)) :
    SetRecords zone (pre ++ r :: rest) s = (oks, some e, s₂) := by
  simp only [SetRecords, hfind]
  rw [setLoop_append zd pre (r :: rest) [] s₀, hpre]
  simp only [setLoop, hr]

/-- Witness for C8: with an empty successful prefix, the first record's
update fails with a transport error and the second record is never
processed; the accumulated empty result comes back with the error. -/
theorem C8_set_partial_witness :
    SetRecords "example.com" [rWithId, rIdB] sFailSecond = ([], some .transport, sDrained) :=
  C8_set_partial "example.com" [] rWithId [rIdB] sFailSecond sFailNext sFailNext sDrained zdW
    [] .transport (by decide) (by decide) (by decide)

/-- C5 (amended).  Failures of underlying calls are not retried and
propagate: a failing zone resolution aborts `SetRecords` with that error.
The exception the claim missed: a failing type+name lookup inside the
per-record routine of Set does not propagate — any lookup failure,
transport failures included, is treated like "no existing record" and the
routine proceeds to the create path. -/
theorem C5_failure_propagation :
    (∀ (zone : String) (rs : List LibdnsRecord) (s s₁ : ApiState) (e : ApiErr),
      findZoneByName zone s = (.error e, s₁) →
      SetRecords zone rs s = ([], some e, s₁)) ∧
    (∀ (zd : ZoneDescriptor) (r : LibdnsRecord) (s s₁ : ApiState) (e : ApiErr),
      r.id = "" →
      ionosFindRecordsInZone zd.id r.type (absoluteName r.name zd.name) s = (.error e, s₁) →
      createOrUpdateRecord zd r s = createNewRecord zd r s₁) := by
  constructor
  · intro zone rs s s₁ e h
    simp only [SetRecords, h]
  · intro zd r s s₁ e hid h
    simp only [createOrUpdateRecord]
    rw [if_neg (by simp [hid]), h]

/-- Witness for C5: a transport-failing lookup sends the id-less record into
the create path. -/
theorem C5_failure_propagation_witness :
    createOrUpdateRecord zdW rNoId sFailFirst = createNewRecord zdW rNoId sEmpty :=
  (C5_failure_propagation).2 zdW rNoId sFailFirst sEmpty .transport (by decide) (by decide)

/-- Counterexample to C5 as stated: in a state holding exactly one record
matching the input's type and name, the type+name lookup fails with a
transport error, yet `SetRecords` returns no error — the lookup failure was
treated as "no existing record" and a duplicate record was created. -/
theorem C5_failure_propagation_counterexample :
    (SetRecords "example.com" [rNoId] sLookupFails).2.1 = none ∧
    ((SetRecords "example.com" [rNoId] sLookupFails).2.2.recs.map (fun p => p.2.name)) =
      ["a.example.com", "a.example.com"] := by
  constructor
  · decide
  · decide
